import Mathlib

/-!
# Verification of the staging-coordinator release-approval core

Shallow embedding of the repository's release-approval coordination core:
the time/schedule utilities (`src/utils/date.ts`), the schedule row parser
(`src/lib/validators.ts`), and the release-check orchestrator with its
polling state machine (`src/services/release-checker.ts`).

Modelling conventions:
* TypeScript `Result<T>` values become the `Result` inductive below.
* A JavaScript `Date` object is modelled by its observable component state
  (`JsDate`: the values of getFullYear/getMonth/getDate/getHours/getMinutes/
  getSeconds).  Comparison of `Date` objects in the source goes through
  `valueOf()` (epoch milliseconds); we model it with `JsDate.toSecs`, the
  standard civil-calendar day count (the millisecond unit is irrelevant to
  order comparisons).
* The `new Date(y, m, d, h, mi, s)` constructor normalises out-of-range
  components; `mkJsDate` models that normalisation (two-digit-year rule,
  month overflow into years, time overflow into days, day overflow across
  month boundaries via `normDay`).
* Effectful code (Slack / Sheets calls, the polling loop) is embedded by
  explicit environment passing: the responses of the injected services are
  data (`Env`, `Tick`), and the messages the run posts are collected in an
  `Effect` list so that frame properties ("no message is posted") are
  statable.
-/

namespace StagingCoordinator

/-- Error values: mirrors the error classes used by the source
(`Error`, `ValidationError`, `NetworkError` with a `cause`). -/
inductive Err where
  | error (message : String)
  | validationError (message : String) (field : String)
  | networkError (message : String) (cause : Err)
deriving Repr, DecidableEq

/-- The `.message` property of an error. -/
def Err.message : Err → String
  | .error m => m
  | .validationError m _ => m
  | .networkError m _ => m

/-- `src/utils/result.ts`: `Result<T> = { ok: true; value: T } | { ok: false; error: E }`. -/
inductive Result (α : Type) where
  | ok (value : α)
  | err (error : Err)
deriving Repr, DecidableEq

/-- `isOk` from `src/utils/result.ts`. -/
def Result.isOk {α : Type} : Result α → Bool
  | .ok _ => true
  | .err _ => false

/-- Observable state of a JavaScript `Date`:
`getFullYear` / `getMonth` (0-indexed) / `getDate` / `getHours` /
`getMinutes` / `getSeconds`. -/
structure JsDate where
  year : Int
  month : Int
  day : Int
  hour : Int
  minute : Int
  second : Int
deriving Repr, DecidableEq

/-- Days from civil date (standard civil-calendar day count, day 0 =
1970-01-01); `month` is 0-indexed as in `JsDate`.  Used only to model
`Date.valueOf()` order comparisons. -/
def daysFromCivil (year month day : Int) : Int :=
  let y := if month ≥ 2 then year else year - 1
  let era := y / 400
  let yoe := y - era * 400
  let mp := (month + 10) % 12
  let doy := (153 * mp + 2) / 5 + day - 1
  let doe := yoe * 365 + yoe / 4 - yoe / 100 + doy
  era * 146097 + doe - 719468

/-- Model of `Date.valueOf()` (up to the millisecond unit): seconds since
the epoch.  `Date` comparisons in the source (`>=`, `<`) compare this. -/
def JsDate.toSecs (d : JsDate) : Int :=
  daysFromCivil d.year d.month d.day * 86400 + d.hour * 3600 + d.minute * 60 + d.second

/-- `src/lib/types.ts`: a `Schedule` record. -/
structure Schedule where
  productName : String
  environmentName : String
  startDateTime : JsDate
  endDateTime : JsDate
  personInChargeId : String
  personInChargeName : String
  remarks : String
deriving Repr, DecidableEq

/-! ## `src/utils/date.ts` — time & schedule utilities -/

/-- `isWithinTimeRange` from `src/utils/date.ts`:
`current >= start && current < end` (a half-open interval test on `Date`
values, which JavaScript compares via `valueOf()`). -/
def isWithinTimeRange (current start «end» : JsDate) : Bool :=
  decide (start.toSecs ≤ current.toSecs) && decide (current.toSecs < «end».toSecs)

/-- `findActiveSchedules` from `src/utils/date.ts`. -/
def findActiveSchedules (schedules : List Schedule) (currentTime : JsDate) : List Schedule :=
  schedules.filter (fun schedule =>
    isWithinTimeRange currentTime schedule.startDateTime schedule.endDateTime)

/-- The overlap condition tested by `findOverlappingSchedules` for a pair
`(schedule1, schedule2)`: same environment, and
`start1 < end2 && start2 < end1`. -/
def overlapCond (schedule1 schedule2 : Schedule) : Bool :=
  schedule1.environmentName == schedule2.environmentName &&
  decide (schedule1.startDateTime.toSecs < schedule2.endDateTime.toSecs) &&
  decide (schedule2.startDateTime.toSecs < schedule1.endDateTime.toSecs)

/-- Inner loop of `findOverlappingSchedules`: the pairs contributed by
`schedules[i]` against `schedules[j]` for `j > i` (the source pushes the
two-element array `[schedule1, schedule2]`; we model it as a pair). -/
def overlapsWith (schedule1 : Schedule) (rest : List Schedule) : List (Schedule × Schedule) :=
  rest.filterMap (fun schedule2 =>
    if overlapCond schedule1 schedule2 then some (schedule1, schedule2) else none)

/-- `findOverlappingSchedules` from `src/utils/date.ts`.  The source runs a
double index loop `i < j` over the array; structurally recursing on the
list and pairing each head with every later element visits exactly the
index pairs `i < j` in the same order. -/
def findOverlappingSchedules : List Schedule → List (Schedule × Schedule)
  | [] => []
  | schedule1 :: rest => overlapsWith schedule1 rest ++ findOverlappingSchedules rest

/-! ## `src/lib/validators.ts` — schedule row parser

The regex
`^(\d{4})\/(\d{1,2})\/(\d{1,2})\s+(\d{1,2}):(\d{1,2})(?::(\d{1,2}))?$`
is embedded as the deterministic matcher `matchDateTime` below.  Because in
this pattern every digit group is followed by a non-digit delimiter (`/`,
`:`, whitespace, or end of input) and the whitespace group is followed by a
digit, maximal-munch scanning of each group is equivalent to the regex
engine's backtracking search, so the deterministic matcher recognises
exactly the language of the regex and captures the same groups. -/

/-- `\d` of the regex: an ASCII digit. -/
def isAsciiDigit (c : Char) : Bool := 48 ≤ c.toNat && c.toNat ≤ 57

/-- Numeric value of an ASCII digit character. -/
def digitVal (c : Char) : Nat := c.toNat - 48

/-- `\s` of a JavaScript regex: WhiteSpace ∪ LineTerminator
(this is also the character set trimmed by `String.prototype.trim`). -/
def isJsSpace (c : Char) : Bool :=
  c.toNat = 32 || c.toNat = 9 || c.toNat = 10 || c.toNat = 11 || c.toNat = 12 ||
  c.toNat = 13 || c.toNat = 160 || c.toNat = 5760 ||
  (8192 ≤ c.toNat && c.toNat ≤ 8202) ||
  c.toNat = 8232 || c.toNat = 8233 || c.toNat = 8239 || c.toNat = 8287 ||
  c.toNat = 12288 || c.toNat = 65279

/-- Decimal value of a digit string (`Number.parseInt(_, 10)` on an
all-digit capture group). -/
def natOfDigits (cs : List Char) : Nat :=
  cs.foldl (fun acc c => acc * 10 + digitVal c) 0

/-- Match one capture group `\d{lo,hi}` by maximal munch: take the maximal
digit run, check its length, return its value and the rest. -/
def takeDigitsLen (lo hi : Nat) (cs : List Char) : Option (Nat × List Char) :=
  let ds := cs.takeWhile isAsciiDigit
  if lo ≤ ds.length ∧ ds.length ≤ hi then some (natOfDigits ds, cs.dropWhile isAsciiDigit)
  else none

/-- Match one literal character. -/
def expectChar (c : Char) : List Char → Option (List Char)
  | x :: rest => if x = c then some rest else none
  | [] => none

/-- The capture groups of the datetime regex:
year, month, day, hour, minute, optional second (display convention,
month 1-based as written in the input). -/
structure RawDT where
  year : Nat
  month : Nat
  day : Nat
  hour : Nat
  minute : Nat
  second : Option Nat
deriving Repr, DecidableEq

/-- Deterministic matcher for
`^(\d{4})\/(\d{1,2})\/(\d{1,2})\s+(\d{1,2}):(\d{1,2})(?::(\d{1,2}))?$`. -/
def matchDateTime (cs : List Char) : Option RawDT := do
  let (year, r) ← takeDigitsLen 4 4 cs
  let r ← expectChar '/' r
  let (month, r) ← takeDigitsLen 1 2 r
  let r ← expectChar '/' r
  let (day, r) ← takeDigitsLen 1 2 r
  let ws := r.takeWhile isJsSpace
  if ws.length = 0 then none else
  let r := r.dropWhile isJsSpace
  let (hour, r) ← takeDigitsLen 1 2 r
  let r ← expectChar ':' r
  let (minute, r) ← takeDigitsLen 1 2 r
  match r with
  | [] => some ⟨year, month, day, hour, minute, none⟩
  | ':' :: r2 => do
    let (second, r3) ← takeDigitsLen 1 2 r2
    if r3 = [] then some ⟨year, month, day, hour, minute, some second⟩ else none
  | _ => none

/-! ### Model of the JavaScript `Date(y, m, d, h, mi, s)` constructor -/

/-- ECMAScript two-digit-year rule of the multi-argument `Date`
constructor: years 0–99 denote 1900+year. -/
def fullYear (y : Int) : Int := if 0 ≤ y ∧ y ≤ 99 then 1900 + y else y

/-- Gregorian leap-year test. -/
def isLeap (y : Int) : Bool := (y % 4 == 0 && y % 100 != 0) || y % 400 == 0

/-- Days in month `m` (0-indexed) of year `y`. -/
def daysInMonth (y m : Int) : Int :=
  if m = 1 then (if isLeap y then 29 else 28)
  else if m = 3 ∨ m = 5 ∨ m = 8 ∨ m = 10 then 30
  else 31

/-- Normalise a (year, 0-indexed month in [0,11], 0-based day offset)
triple by carrying the day offset across month boundaries, as the `Date`
constructor does for out-of-range day arguments.  `fuel` bounds the
recursion; every use in this development supplies ample fuel for the
bounded inputs produced by the parser. -/
def normDay : Nat → Int → Int → Int → Int × Int × Int
  | 0, y, m, off => (y, m, off)
  | fuel + 1, y, m, off =>
    if off < 0 then
      let y' := if m = 0 then y - 1 else y
      let m' := if m = 0 then 11 else m - 1
      normDay fuel y' m' (off + daysInMonth y' m')
    else if daysInMonth y m ≤ off then
      let y' := if m = 11 then y + 1 else y
      let m' := if m = 11 then 0 else m + 1
      normDay fuel y' m' (off - daysInMonth y m)
    else (y, m, off)

/-- Model of `new Date(y, m0, d, h, mi, s)` (local time): the observable
component state after ECMAScript normalisation (two-digit year, month
overflow into years, time-of-day overflow into days, day overflow across
months). -/
def mkJsDate (y m0 d h mi s : Int) : JsDate :=
  let yr := fullYear y
  let time := h * 3600 + mi * 60 + s
  let q := time / 86400
  let r := time % 86400
  let ym := yr + m0 / 12
  let mm := m0 % 12
  let n := normDay 400 ym mm (d - 1 + q)
  { year := n.1, month := n.2.1, day := n.2.2 + 1,
    hour := r / 3600, minute := (r % 3600) / 60, second := r % 60 }

/-- `parseDateTime` from `src/lib/validators.ts`: reject empty/blank input,
match the regex, build the `Date`, then re-validate the constructed date's
components against the input digits (rejecting values the constructor
silently normalised). -/
def parseDateTime (dateTimeStr : String) : Result JsDate :=
  -- `!dateTimeStr || dateTimeStr.trim() === ''`
  if dateTimeStr.data.all isJsSpace then
    .err (.error "Invalid datetime format: empty string")
  else
    match matchDateTime dateTimeStr.data with
    | none => .err (.error ("Invalid datetime format: " ++ dateTimeStr))
    | some raw =>
      let expectedSecond : Int := (raw.second.getD 0 : Nat)
      let date := mkJsDate raw.year ((raw.month : Int) - 1) raw.day raw.hour raw.minute
        expectedSecond
      if date.year = (raw.year : Int) ∧ date.month = (raw.month : Int) - 1 ∧
         date.day = (raw.day : Int) ∧ date.hour = (raw.hour : Int) ∧
         date.minute = (raw.minute : Int) ∧ date.second = expectedSecond then
        .ok date
      else
        .err (.error ("Invalid datetime format: " ++ dateTimeStr))

/-- `isValidSlackUserId` from `src/lib/validators.ts` (the `null` /
`undefined` guards of the source are unrepresentable for a typed string). -/
def isValidSlackUserId (userId : String) : Bool := 3 ≤ userId.length

/-- `validateScheduleRow` from `src/lib/validators.ts`.  The source
destructures the first seven array elements; on the length-checked branch
`List.getD` reads the same positions. -/
def validateScheduleRow (row : List String) : Result Schedule :=
  if row.length < 7 then
    .err (.error ("Invalid row data: insufficient columns (expected 7, got " ++
      toString row.length ++ ")"))
  else
    let productName := row.getD 0 ""
    let environmentName := row.getD 1 ""
    let startDateTimeStr := row.getD 2 ""
    let endDateTimeStr := row.getD 3 ""
    let personInChargeId := row.getD 4 ""
    let personInChargeName := row.getD 5 ""
    let remarks := row.getD 6 ""
    match parseDateTime startDateTimeStr with
    | .err e => .err (.error ("Invalid start datetime: " ++ e.message))
    | .ok startDateTime =>
      match parseDateTime endDateTimeStr with
      | .err e => .err (.error ("Invalid end datetime: " ++ e.message))
      | .ok endDateTime =>
        if ¬ isValidSlackUserId personInChargeId then
          .err (.error ("Invalid person in charge ID: " ++ personInChargeId))
        else
          .ok { productName, environmentName, startDateTime, endDateTime,
                personInChargeId, personInChargeName, remarks }

/-! ## `src/services/release-checker.ts` — orchestrator and polling loop -/

/-- `MessageInfo` from `src/lib/slack.ts`. -/
structure MessageInfo where
  channel : String
  timestamp : String
deriving Repr, DecidableEq

/-- `Reaction` from `src/lib/slack.ts`. -/
structure Reaction where
  name : String
  count : Nat
  users : List String
deriving Repr, DecidableEq

/-- `UserInfo` from `src/lib/slack.ts`. -/
structure UserInfo where
  id : String
  name : String
deriving Repr, DecidableEq

/-- `ReleaseCheckConfig` from `src/services/release-checker.ts`; optional
fields are `Option`s (`none` = the property is absent / `undefined`). -/
structure ReleaseCheckConfig where
  productName : String
  environmentName : String
  requesterUserId : Option String := none
  waitMinutes : Option Nat := none
  approveReaction : Option String := none
  rejectReaction : Option String := none
  timezone : Option String := none
deriving Repr, DecidableEq

/-- Status component of `ApprovalResult`. -/
inductive ApprovalStatus where
  | approved
  | rejected
  | timeout
deriving Repr, DecidableEq

/-- `ApprovalResult` from `src/services/release-checker.ts`. -/
structure ApprovalResult where
  status : ApprovalStatus
  approvers : Option (List String) := none
deriving Repr, DecidableEq

/-- Status component of `ReleaseCheckResult`. -/
inductive CheckStatus where
  | approved
  | rejected
  | timeout
  | no_schedule
deriving Repr, DecidableEq

/-- The final status corresponding to a polling outcome (the source reuses
the same string literals). -/
def ApprovalStatus.toCheckStatus : ApprovalStatus → CheckStatus
  | .approved => .approved
  | .rejected => .rejected
  | .timeout => .timeout

/-- `ReleaseCheckResult` from `src/services/release-checker.ts`. -/
structure ReleaseCheckResult where
  status : CheckStatus
  message : String
  approvers : Option (List String) := none
  schedules : Option (List Schedule) := none
deriving Repr, DecidableEq

/-- A message-posting side effect performed on the Slack client during a
run (`postMessage` or `postThreadMessage` call with its arguments). -/
inductive Effect where
  | postMessage (channelId text : String) (mentionUserIds : List String)
  | postThreadMessage (channelId threadTs text : String)
deriving Repr, DecidableEq

/-- One iteration of the polling loop, as observed through the injected
capabilities: the value of `Date.now()` at the loop condition, the
response of `slack.getReactions`, and the response `slack.getUserInfo`
would give if called during this iteration. -/
structure Tick where
  now : Int
  reactions : Result (List Reaction)
  userInfo : Result UserInfo
deriving Repr, DecidableEq

/-- The environment of a `checkRelease` run: the responses of the injected
capabilities.  `getNow` models `getCurrentDateTime` (per timezone string);
`postMessageResult` is the response to the (at most one) top-level
`postMessage` call; `startTime` is `Date.now()` recorded on entry to
`waitForApproval`; `ticks` drives the polling loop. -/
structure Env where
  getNow : String → Result JsDate
  fetchResult : Result (List Schedule)
  postMessageResult : Result MessageInfo
  startTime : Int
  ticks : List Tick

/-- Model of JavaScript `x || d` for an optional string value: `undefined`
and `""` are falsy. -/
def jsOrStr : Option String → String → String
  | none, d => d
  | some s, d => if s = "" then d else s

/-- Model of JavaScript `x || d` for an optional number value: `undefined`
and `0` are falsy. -/
def jsOrNat : Option Nat → Nat → Nat
  | none, d => d
  | some n, d => if n = 0 then d else n

/-- `config.requesterUserId ? [config.requesterUserId] : []` (JavaScript
truthiness: `undefined` and `""` give `[]`). -/
def requesterList : Option String → List String
  | none => []
  | some r => if r = "" then [] else [r]

/-- `findRelevantSchedules` from `src/services/release-checker.ts`. -/
def findRelevantSchedules (schedules : List Schedule) (productName environmentName : String)
    (currentTime : JsDate) : List Schedule :=
  let relevantSchedules := schedules.filter (fun schedule =>
    schedule.productName == productName && schedule.environmentName == environmentName)
  findActiveSchedules relevantSchedules currentTime

/-- `[...new Set(xs)]`: de-duplication preserving first-seen order. -/
def dedupFirst (xs : List String) : List String :=
  xs.foldl (fun acc x => if acc.contains x then acc else acc ++ [x]) []

/-- The mention list computed by `requestApproval`:
`[...new Set(schedules.map((s) => s.personInChargeId))]`. -/
def approvalMentionIds (schedules : List Schedule) : List String :=
  dedupFirst (schedules.map Schedule.personInChargeId)

/-- The message text built by `requestApproval`. -/
def approvalMessage (schedules : List Schedule) (config : ReleaseCheckConfig) : String :=
  let scheduleList := String.intercalate "\n"
    (schedules.map (fun s => "• " ++ s.productName ++ " (" ++ s.personInChargeName ++ ")"))
  let requesterLine := match config.requesterUserId with
    | some r => if r = "" then "" else "👤 *Requested by:* <@" ++ r ++ ">\n"
    | none => ""
  "🚀 *Release Request*\n\n📦 *Product:* " ++ config.productName ++
  "\n🌍 *Environment:* " ++ config.environmentName ++ "\n" ++ requesterLine ++
  "\n📅 *Active Schedules:*\n" ++ scheduleList ++
  "\n\n━━━━━━━━━━━━━━━━━━━━━━━━━━\n✅ React with :" ++
  jsOrStr config.approveReaction "ok" ++ ": to *approve*\n❌ React with :" ++
  jsOrStr config.rejectReaction "-1" ++ ": to *reject*\n⏰ Timeout: " ++
  toString (jsOrNat config.waitMinutes 20) ++ " minutes"

/-- Users of the reactions named `name`, with excluded users removed:
`reactions.filter((r) => r.name === name).flatMap((r) => r.users)
.filter((userId) => !excludeUserIds.includes(userId))`. -/
def nonExcludedUsers (reactions : List Reaction) (name : String)
    (excludeUserIds : List String) : List String :=
  ((reactions.filter (fun r => r.name == name)).flatMap Reaction.users).filter
    (fun userId => !(excludeUserIds.contains userId))

/-- The `userName` resolved for the thread reply (`'Unknown User'` when
`getUserInfo` fails). -/
def resolvedUserName : Result UserInfo → String
  | .ok u => u.name
  | .err _ => "Unknown User"

/-- The body of one polling iteration after a successful reaction fetch
(`src/services/release-checker.ts` lines 136–184): rejections are checked
first, then approvals; `some` = terminal decision (with its thread-reply
effect), `none` = fall through to the next iteration. -/
def tickDecision (userInfoResult : Result UserInfo) (reactions : List Reaction)
    (channelId messageTimestamp : String) (excludeUserIds : List String)
    (approveReaction rejectReaction : String) : Option (ApprovalResult × List Effect) :=
  let rejections := reactions.filter (fun r => r.name == rejectReaction)
  let rejectors := (rejections.flatMap Reaction.users).filter
    (fun userId => !(excludeUserIds.contains userId))
  -- source: `if (rejections.length > 0) { ... if (rejectors.length > 0) { return ... } }`;
  -- control falls through to the approval check when either guard fails
  if 0 < rejections.length ∧ 0 < rejectors.length then
    some (⟨.rejected, some rejectors⟩,
      [.postThreadMessage channelId messageTimestamp
        ("❌ <@" ++ rejectors.headD "" ++ "> (" ++ resolvedUserName userInfoResult ++
          ") が拒否しました")])
  else
    let approvals := reactions.filter (fun r => r.name == approveReaction)
    let approvers := (approvals.flatMap Reaction.users).filter
      (fun userId => !(excludeUserIds.contains userId))
    if 0 < approvals.length ∧ 0 < approvers.length then
      some (⟨.approved, some approvers⟩,
        [.postThreadMessage channelId messageTimestamp
          ("✅ <@" ++ approvers.headD "" ++ "> (" ++ resolvedUserName userInfoResult ++
            ") が承認しました")])
    else none

/-- `waitForApproval` from `src/services/release-checker.ts`, driven by a
finite trace of polling iterations.  Each iteration first evaluates the
loop condition `Date.now() - startTime < timeoutMs` with the iteration's
clock value; a failed reaction fetch sleeps and retries; otherwise the
iteration body decides or sleeps and retries.  An exhausted trace models
the clock having passed the deadline (`Date.now()` grows without bound),
so it returns the same timeout result the loop condition produces. -/
def waitForApproval (startTime : Int) (channelId messageTimestamp : String)
    (excludeUserIds : List String) (approveReaction rejectReaction : String)
    (waitMinutes : Nat) : List Tick → ApprovalResult × List Effect
  | [] => (⟨.timeout, none⟩, [])
  | tick :: rest =>
    if tick.now - startTime < (waitMinutes : Int) * 60 * 1000 then
      match tick.reactions with
      | .err _ =>
        waitForApproval startTime channelId messageTimestamp excludeUserIds
          approveReaction rejectReaction waitMinutes rest
      | .ok reactions =>
        match tickDecision tick.userInfo reactions channelId messageTimestamp
            excludeUserIds approveReaction rejectReaction with
        | some d => d
        | none =>
          waitForApproval startTime channelId messageTimestamp excludeUserIds
            approveReaction rejectReaction waitMinutes rest
    else (⟨.timeout, none⟩, [])

/-- `approvalResult.approvers?.join(', ') || 'unknown'`. -/
def approversOrUnknown : Option (List String) → String
  | none => "unknown"
  | some us =>
    let joined := String.intercalate ", " us
    if joined = "" then "unknown" else joined

/-- The `resultMessage` record of `checkRelease`. -/
def resultMessage (approvalResult : ApprovalResult) (waitMinutes : Nat) : String :=
  match approvalResult.status with
  | .approved => "Release approved by: " ++ approversOrUnknown approvalResult.approvers
  | .rejected => "Release rejected by: " ++ approversOrUnknown approvalResult.approvers
  | .timeout => "Release request timed out after " ++ toString waitMinutes ++
      " minutes. No response received."

/-- `checkRelease` from `src/services/release-checker.ts`, returning the
run's result together with the list of messages posted to Slack.  The
source's `try/catch` wrapper is omitted: no branch of this pure model
throws. -/
def checkRelease (config : ReleaseCheckConfig) (env : Env) (channelId : String) :
    Result ReleaseCheckResult × List Effect :=
  let timezone := jsOrStr config.timezone "Asia/Tokyo"
  let waitMinutes := jsOrNat config.waitMinutes 20
  let approveReaction := jsOrStr config.approveReaction "ok"
  let rejectReaction := jsOrStr config.rejectReaction "-1"
  match env.getNow timezone with
  | .err e => (.err e, [])
  | .ok currentTime =>
    match env.fetchResult with
    | .err e =>
      -- On sheets error, notify (result of the post ignored) and proceed
      -- (availability-first).
      let notice := "⚠️ Error occurred while checking schedules: " ++ e.message ++
        "\nProceeding with release for availability."
      (.ok { status := .approved,
             message := "Release approved - proceeding due to error (availability-first policy)" },
       [.postMessage channelId notice []])
    | .ok schedules =>
      let relevantSchedules :=
        findRelevantSchedules schedules config.productName config.environmentName currentTime
      if relevantSchedules.isEmpty then
        (.ok { status := .no_schedule,
               message := "No active schedules found for " ++ config.productName ++ " in " ++
                 config.environmentName ++ " environment. Release approved.",
               schedules := some [] },
         [])
      else
        -- requestApproval
        let postEffect := Effect.postMessage channelId
          (approvalMessage relevantSchedules config) (approvalMentionIds relevantSchedules)
        match env.postMessageResult with
        | .err e =>
          (.err (.networkError "Failed to post approval request to Slack" e), [postEffect])
        | .ok messageResult =>
          let excludeUserIds := requesterList config.requesterUserId
          let (approvalResult, pollEffects) := waitForApproval env.startTime channelId
            messageResult.timestamp excludeUserIds approveReaction rejectReaction
            waitMinutes env.ticks
          (.ok { status := approvalResult.status.toCheckStatus,
                 message := resultMessage approvalResult waitMinutes,
                 approvers := approvalResult.approvers,
                 schedules := some relevantSchedules },
           postEffect :: pollEffects)

/-! ## Theorems -/

/-- Spec-side activity predicate: the half-open interval
`[startDateTime, endDateTime)` contains the instant. -/
def activeAt (schedule : Schedule) (t : JsDate) : Prop :=
  schedule.startDateTime.toSecs ≤ t.toSecs ∧ t.toSecs < schedule.endDateTime.toSecs

instance (schedule : Schedule) (t : JsDate) : Decidable (activeAt schedule t) := by
  unfold activeAt; infer_instance

/-- C3: `isWithinTimeRange t start end` is true iff `start ≤ t < end` (in
instant order, inclusive of start and exclusive of end), and
`findActiveSchedules` returns exactly the schedules whose half-open
interval contains the instant, as an order-preserving filter. -/
theorem isWithinTimeRange_iff_and_findActive_filter :
    (∀ t s e : JsDate,
      isWithinTimeRange t s e = true ↔ s.toSecs ≤ t.toSecs ∧ t.toSecs < e.toSecs) ∧
    (∀ (schedules : List Schedule) (t : JsDate),
      findActiveSchedules schedules t = schedules.filter (fun s => decide (activeAt s t))) := by
  constructor
  · intro t s e
    simp [isWithinTimeRange]
  · intro schedules t
    unfold findActiveSchedules
    apply List.filter_congr
    intro s _
    simp [isWithinTimeRange, activeAt]

/-- Helper for C7: membership in `findOverlappingSchedules` is exactly
"`A` precedes `B` in the input and the pair passes the overlap test". -/
theorem mem_findOverlappingSchedules (l : List Schedule) (A B : Schedule) :
    (A, B) ∈ findOverlappingSchedules l ↔
      ∃ l₁ l₂, l = l₁ ++ A :: l₂ ∧ B ∈ l₂ ∧ overlapCond A B = true := by
  induction l with
  | nil => simp [findOverlappingSchedules]
  | cons s rest ih =>
    simp only [findOverlappingSchedules, List.mem_append, ih, overlapsWith,
      List.mem_filterMap]
    constructor
    · rintro (⟨s2, hs2, hf⟩ | ⟨l₁, l₂, rfl, hB, hc⟩)
      · split at hf
        · rename_i hcond
          cases hf
          exact ⟨[], rest, rfl, hs2, hcond⟩
        · cases hf
      · exact ⟨s :: l₁, l₂, rfl, hB, hc⟩
    · rintro ⟨l₁, l₂, heq, hB, hc⟩
      cases l₁ with
      | nil =>
        simp only [List.nil_append, List.cons.injEq] at heq
        obtain ⟨rfl, rfl⟩ := heq
        exact Or.inl ⟨B, hB, by simp [hc]⟩
      | cons x l₁' =>
        simp only [List.cons_append, List.cons.injEq] at heq
        obtain ⟨rfl, rfl⟩ := heq
        exact Or.inr ⟨l₁', l₂, rfl, hB, hc⟩

/-- Helper for C7: in a duplicate-free list an element cannot both precede
and follow another. -/
theorem precedes_asymm {α : Type} (l : List α) (A B : α) (hnd : l.Nodup)
    (hpre : ∃ l₁ l₂, l = l₁ ++ A :: l₂ ∧ B ∈ l₂)
    (hpre' : ∃ m₁ m₂, l = m₁ ++ B :: m₂ ∧ A ∈ m₂) : False := by
  induction l with
  | nil =>
    obtain ⟨l₁, l₂, heq, _⟩ := hpre
    exact absurd heq (by simp)
  | cons x rest ih =>
    obtain ⟨l₁, l₂, heq, hB⟩ := hpre
    obtain ⟨m₁, m₂, heq', hA⟩ := hpre'
    have hndr : rest.Nodup := (List.nodup_cons.mp hnd).2
    have hxr : x ∉ rest := (List.nodup_cons.mp hnd).1
    cases l₁ with
    | nil =>
      simp only [List.nil_append, List.cons.injEq] at heq
      obtain ⟨rfl, rfl⟩ := heq
      -- x = A, B ∈ rest
      cases m₁ with
      | nil =>
        simp only [List.nil_append, List.cons.injEq] at heq'
        obtain ⟨rfl, rfl⟩ := heq'
        exact hxr hA
      | cons y m₁' =>
        simp only [List.cons_append, List.cons.injEq] at heq'
        obtain ⟨rfl, rfl⟩ := heq'
        exact hxr (by simp [hA])
    | cons y l₁' =>
      simp only [List.cons_append, List.cons.injEq] at heq
      obtain ⟨rfl, hr⟩ := heq
      cases m₁ with
      | nil =>
        simp only [List.nil_append, List.cons.injEq] at heq'
        obtain ⟨rfl, hr'⟩ := heq'
        exact hxr (by rw [hr]; simp [hB])
      | cons z m₁' =>
        simp only [List.cons_append, List.cons.injEq] at heq'
        obtain ⟨rfl, hr'⟩ := heq'
        exact ih hndr ⟨l₁', l₂, hr, hB⟩ ⟨m₁', m₂, hr', hA⟩

/-- Helper for C7: every pair produced has its first component in the
input list. -/
theorem fst_mem_of_mem_findOverlapping (l : List Schedule) (A B : Schedule)
    (h : (A, B) ∈ findOverlappingSchedules l) : A ∈ l := by
  obtain ⟨l₁, l₂, rfl, _, _⟩ := (mem_findOverlappingSchedules l A B).mp h
  simp

/-- C7: `findOverlappingSchedules` returns `(A, B)` (with `A` preceding
`B` in the input) iff both share an environment and the half-open ranges
strictly overlap (`A.start < B.end ∧ B.start < A.end`); on a
duplicate-free input every qualifying pair appears exactly once, and never
also in the opposite orientation. -/
theorem findOverlappingSchedules_characterisation :
    (∀ (l : List Schedule) (A B : Schedule),
      (A, B) ∈ findOverlappingSchedules l ↔
        ∃ l₁ l₂, l = l₁ ++ A :: l₂ ∧ B ∈ l₂ ∧
          A.environmentName = B.environmentName ∧
          A.startDateTime.toSecs < B.endDateTime.toSecs ∧
          B.startDateTime.toSecs < A.endDateTime.toSecs) ∧
    (∀ l : List Schedule, l.Nodup → (findOverlappingSchedules l).Nodup) ∧
    (∀ (l : List Schedule) (A B : Schedule), l.Nodup → A ≠ B →
      (A, B) ∈ findOverlappingSchedules l → (B, A) ∉ findOverlappingSchedules l) := by
  refine ⟨?_, ?_, ?_⟩
  · intro l A B
    rw [mem_findOverlappingSchedules]
    have hcond : overlapCond A B = true ↔
        A.environmentName = B.environmentName ∧
        A.startDateTime.toSecs < B.endDateTime.toSecs ∧
        B.startDateTime.toSecs < A.endDateTime.toSecs := by
      simp [overlapCond, and_assoc]
    constructor
    · rintro ⟨l₁, l₂, rfl, hB, hc⟩
      exact ⟨l₁, l₂, rfl, hB, hcond.mp hc⟩
    · rintro ⟨l₁, l₂, rfl, hB, hc⟩
      exact ⟨l₁, l₂, rfl, hB, hcond.mpr hc⟩
  · intro l hnd
    induction l with
    | nil => simp [findOverlappingSchedules]
    | cons s rest ih =>
      have hndr : rest.Nodup := (List.nodup_cons.mp hnd).2
      have hxr : s ∉ rest := (List.nodup_cons.mp hnd).1
      simp only [findOverlappingSchedules]
      apply List.Nodup.append
      · unfold overlapsWith
        apply List.Nodup.filterMap _ hndr
        intro a b c hca hcb
        split at hca
        · cases hca
          split at hcb
          · cases hcb; rfl
          · cases hcb
        · cases hca
      · exact ih hndr
      · intro p hp hp'
        obtain ⟨s2, hs2, hf⟩ := List.mem_filterMap.mp hp
        split at hf
        · cases hf
          exact hxr (fst_mem_of_mem_findOverlapping rest s s2 hp')
        · cases hf
  · intro l A B hnd hne hAB hBA
    obtain ⟨l₁, l₂, heq, hB, _⟩ := (mem_findOverlappingSchedules l A B).mp hAB
    obtain ⟨m₁, m₂, heq', hA, _⟩ := (mem_findOverlappingSchedules l B A).mp hBA
    exact precedes_asymm l A B hnd ⟨l₁, l₂, heq, hB⟩ ⟨m₁, m₂, heq', hA⟩

/-- C6: `validateScheduleRow` rejects rows with fewer than 7 fields naming
the insufficient columns; rejects a bad start (resp. end) datetime naming
that field; rejects a person-in-charge ID shorter than 3 characters naming
it; and on a row whose first 7 fields are valid returns the `Schedule`
with the fields taken positionally. -/
theorem validateScheduleRow_cases :
    (∀ row : List String, row.length < 7 →
      validateScheduleRow row = .err (.error
        ("Invalid row data: insufficient columns (expected 7, got " ++
          toString row.length ++ ")"))) ∧
    (∀ (row : List String) (e : Err), 7 ≤ row.length →
      parseDateTime (row.getD 2 "") = .err e →
      validateScheduleRow row = .err (.error ("Invalid start datetime: " ++ e.message))) ∧
    (∀ (row : List String) (s : JsDate) (e : Err), 7 ≤ row.length →
      parseDateTime (row.getD 2 "") = .ok s →
      parseDateTime (row.getD 3 "") = .err e →
      validateScheduleRow row = .err (.error ("Invalid end datetime: " ++ e.message))) ∧
    (∀ (row : List String) (s en : JsDate), 7 ≤ row.length →
      parseDateTime (row.getD 2 "") = .ok s →
      parseDateTime (row.getD 3 "") = .ok en →
      (row.getD 4 "").length < 3 →
      validateScheduleRow row = .err (.error ("Invalid person in charge ID: " ++ row.getD 4 ""))) ∧
    (∀ (row : List String) (s en : JsDate), 7 ≤ row.length →
      parseDateTime (row.getD 2 "") = .ok s →
      parseDateTime (row.getD 3 "") = .ok en →
      3 ≤ (row.getD 4 "").length →
      validateScheduleRow row =
        .ok ⟨row.getD 0 "", row.getD 1 "", s, en, row.getD 4 "", row.getD 5 "", row.getD 6 ""⟩) := by
  refine ⟨?_, ?_, ?_, ?_, ?_⟩
  · intro row h
    unfold validateScheduleRow
    rw [if_pos h]
  · intro row e h hp
    unfold validateScheduleRow
    rw [if_neg (by omega)]
    simp only [hp]
  · intro row s e h hp hq
    unfold validateScheduleRow
    rw [if_neg (by omega)]
    simp only [hp, hq]
  · intro row s en h hp hq hid
    unfold validateScheduleRow
    rw [if_neg (by omega)]
    simp only [hp, hq]
    rw [if_pos (show ¬ isValidSlackUserId (row.getD 4 "") = true by
      simp only [isValidSlackUserId, decide_eq_true_eq]; omega)]
  · intro row s en h hp hq hid
    unfold validateScheduleRow
    rw [if_neg (by omega)]
    simp only [hp, hq]
    rw [if_neg (show ¬¬ isValidSlackUserId (row.getD 4 "") = true by
      simp only [isValidSlackUserId, decide_eq_true_eq]; omega)]

/-! ### Polling-loop helper lemmas -/

theorem nonExcludedUsers_nil_of_no_named (rs : List Reaction) (name : String)
    (excl : List String) (h : rs.filter (fun r => r.name == name) = []) :
    nonExcludedUsers rs name excl = [] := by
  unfold nonExcludedUsers
  rw [h]
  rfl

/-- `nonExcludedUsers ≠ []` is "some reaction with that name has a user
outside the excluded set". -/
theorem nonExcludedUsers_ne_nil_iff (rs : List Reaction) (name : String)
    (excl : List String) :
    nonExcludedUsers rs name excl ≠ [] ↔
      ∃ r ∈ rs, r.name = name ∧ ∃ u ∈ r.users, u ∉ excl := by
  unfold nonExcludedUsers
  constructor
  · intro hne
    obtain ⟨u, hu⟩ := List.exists_mem_of_ne_nil _ hne
    rw [List.mem_filter] at hu
    obtain ⟨humem, hexcl⟩ := hu
    rw [List.mem_flatMap] at humem
    obtain ⟨r, hr, hur⟩ := humem
    rw [List.mem_filter, beq_iff_eq] at hr
    refine ⟨r, hr.1, hr.2, u, hur, ?_⟩
    simpa using hexcl
  · rintro ⟨r, hr, hname, u, hu, hexcl⟩
    apply List.ne_nil_of_mem (a := u)
    rw [List.mem_filter]
    refine ⟨?_, by simpa using hexcl⟩
    rw [List.mem_flatMap]
    exact ⟨r, by rw [List.mem_filter, beq_iff_eq]; exact ⟨hr, hname⟩, hu⟩

theorem tickDecision_rejected (uinfo : Result UserInfo) (rs : List Reaction)
    (ch ts : String) (excl : List String) (ar rr : String)
    (hne : nonExcludedUsers rs rr excl ≠ []) :
    tickDecision uinfo rs ch ts excl ar rr =
      some (⟨.rejected, some (nonExcludedUsers rs rr excl)⟩,
        [.postThreadMessage ch ts
          ("❌ <@" ++ (nonExcludedUsers rs rr excl).headD "" ++ "> (" ++
            resolvedUserName uinfo ++ ") が拒否しました")]) := by
  have hfil : rs.filter (fun r => r.name == rr) ≠ [] := by
    intro h
    exact hne (nonExcludedUsers_nil_of_no_named rs rr excl h)
  simp only [tickDecision]
  rw [show ((rs.filter (fun r => r.name == rr)).flatMap Reaction.users).filter
      (fun userId => !(excl.contains userId)) = nonExcludedUsers rs rr excl from rfl]
  rw [if_pos ⟨List.length_pos.mpr hfil, List.length_pos.mpr hne⟩]

theorem tickDecision_approved (uinfo : Result UserInfo) (rs : List Reaction)
    (ch ts : String) (excl : List String) (ar rr : String)
    (hrej : nonExcludedUsers rs rr excl = [])
    (hne : nonExcludedUsers rs ar excl ≠ []) :
    tickDecision uinfo rs ch ts excl ar rr =
      some (⟨.approved, some (nonExcludedUsers rs ar excl)⟩,
        [.postThreadMessage ch ts
          ("✅ <@" ++ (nonExcludedUsers rs ar excl).headD "" ++ "> (" ++
            resolvedUserName uinfo ++ ") が承認しました")]) := by
  have hfil : rs.filter (fun r => r.name == ar) ≠ [] := by
    intro h
    exact hne (nonExcludedUsers_nil_of_no_named rs ar excl h)
  simp only [tickDecision]
  rw [show ((rs.filter (fun r => r.name == rr)).flatMap Reaction.users).filter
      (fun userId => !(excl.contains userId)) = nonExcludedUsers rs rr excl from rfl]
  rw [if_neg (by rw [hrej]; rintro ⟨_, h⟩; simp at h)]
  rw [show ((rs.filter (fun r => r.name == ar)).flatMap Reaction.users).filter
      (fun userId => !(excl.contains userId)) = nonExcludedUsers rs ar excl from rfl]
  rw [if_pos ⟨List.length_pos.mpr hfil, List.length_pos.mpr hne⟩]

theorem tickDecision_none (uinfo : Result UserInfo) (rs : List Reaction)
    (ch ts : String) (excl : List String) (ar rr : String)
    (hrej : nonExcludedUsers rs rr excl = [])
    (happ : nonExcludedUsers rs ar excl = []) :
    tickDecision uinfo rs ch ts excl ar rr = none := by
  simp only [tickDecision]
  rw [show ((rs.filter (fun r => r.name == rr)).flatMap Reaction.users).filter
      (fun userId => !(excl.contains userId)) = nonExcludedUsers rs rr excl from rfl]
  rw [if_neg (by rw [hrej]; rintro ⟨_, h⟩; simp at h)]
  rw [show ((rs.filter (fun r => r.name == ar)).flatMap Reaction.users).filter
      (fun userId => !(excl.contains userId)) = nonExcludedUsers rs ar excl from rfl]
  rw [if_neg (by rw [happ]; rintro ⟨_, h⟩; simp at h)]

/-- C2: in a polling iteration within the wait window whose reaction fetch
succeeds, the run terminates `rejected` exactly when some reaction named
`rejectReaction` has a user outside `excludeUserIds` (rejection takes
priority even when an approve reaction is also decisive); otherwise it
terminates `approved` exactly when some reaction named `approveReaction`
has a user outside `excludeUserIds`; otherwise polling continues.  The
returned approvers list is exactly the non-excluded users of the deciding
reaction name. -/
theorem waitForApproval_tick_characterisation :
    ∀ (tick : Tick) (rest : List Tick) (startTime : Int) (ch ts : String)
      (excl : List String) (ar rr : String) (wm : Nat) (rs : List Reaction),
      tick.now - startTime < (wm : Int) * 60 * 1000 →
      tick.reactions = .ok rs →
      ((nonExcludedUsers rs rr excl ≠ [] ↔
          ∃ r ∈ rs, r.name = rr ∧ ∃ u ∈ r.users, u ∉ excl) ∧
       (nonExcludedUsers rs ar excl ≠ [] ↔
          ∃ r ∈ rs, r.name = ar ∧ ∃ u ∈ r.users, u ∉ excl) ∧
       (nonExcludedUsers rs rr excl ≠ [] →
         waitForApproval startTime ch ts excl ar rr wm (tick :: rest) =
           (⟨.rejected, some (nonExcludedUsers rs rr excl)⟩,
            [.postThreadMessage ch ts
              ("❌ <@" ++ (nonExcludedUsers rs rr excl).headD "" ++ "> (" ++
                resolvedUserName tick.userInfo ++ ") が拒否しました")])) ∧
       (nonExcludedUsers rs rr excl = [] → nonExcludedUsers rs ar excl ≠ [] →
         waitForApproval startTime ch ts excl ar rr wm (tick :: rest) =
           (⟨.approved, some (nonExcludedUsers rs ar excl)⟩,
            [.postThreadMessage ch ts
              ("✅ <@" ++ (nonExcludedUsers rs ar excl).headD "" ++ "> (" ++
                resolvedUserName tick.userInfo ++ ") が承認しました")])) ∧
       (nonExcludedUsers rs rr excl = [] → nonExcludedUsers rs ar excl = [] →
         waitForApproval startTime ch ts excl ar rr wm (tick :: rest) =
           waitForApproval startTime ch ts excl ar rr wm rest)) := by
  intro tick rest startTime ch ts excl ar rr wm rs hlt hr
  refine ⟨nonExcludedUsers_ne_nil_iff rs rr excl, nonExcludedUsers_ne_nil_iff rs ar excl,
    ?_, ?_, ?_⟩
  · intro hne
    simp only [waitForApproval, if_pos hlt, hr]
    rw [tickDecision_rejected tick.userInfo rs ch ts excl ar rr hne]
  · intro hrej hne
    simp only [waitForApproval, if_pos hlt, hr]
    rw [tickDecision_approved tick.userInfo rs ch ts excl ar rr hrej hne]
  · intro hrej happ
    simp only [waitForApproval, if_pos hlt, hr]
    rw [tickDecision_none tick.userInfo rs ch ts excl ar rr hrej happ]

/-- C4: if no iteration observes a counted decisive reaction while the
wall clock is within the wait window, `waitForApproval` ends with status
`timeout` and no approvers (failed reaction fetches merely retry); and the
elapsed-time check compares the iteration's wall clock against the start
time recorded once at entry, so as soon as any iteration's clock reaches
`waitMinutes`, the run times out regardless of everything later in the
trace. -/
theorem waitForApproval_timeout_characterisation :
    (∀ (ticks : List Tick) (startTime : Int) (ch ts : String) (excl : List String)
       (ar rr : String) (wm : Nat),
      (∀ tick ∈ ticks, tick.now - startTime < (wm : Int) * 60 * 1000 →
        ∀ rs, tick.reactions = .ok rs →
          nonExcludedUsers rs rr excl = [] ∧ nonExcludedUsers rs ar excl = []) →
      waitForApproval startTime ch ts excl ar rr wm ticks = (⟨.timeout, none⟩, [])) ∧
    (∀ (ticks₁ : List Tick) (tick : Tick) (ticks₂ : List Tick) (startTime : Int)
       (ch ts : String) (excl : List String) (ar rr : String) (wm : Nat),
      (∀ t ∈ ticks₁, t.now - startTime < (wm : Int) * 60 * 1000 →
        ∀ rs, t.reactions = .ok rs →
          nonExcludedUsers rs rr excl = [] ∧ nonExcludedUsers rs ar excl = []) →
      (wm : Int) * 60 * 1000 ≤ tick.now - startTime →
      waitForApproval startTime ch ts excl ar rr wm (ticks₁ ++ tick :: ticks₂) =
        (⟨.timeout, none⟩, [])) := by
  constructor
  · intro ticks startTime ch ts excl ar rr wm h
    induction ticks with
    | nil => simp [waitForApproval]
    | cons t rest ih =>
      have hrest : ∀ tick ∈ rest, tick.now - startTime < (wm : Int) * 60 * 1000 →
          ∀ rs, tick.reactions = .ok rs →
            nonExcludedUsers rs rr excl = [] ∧ nonExcludedUsers rs ar excl = [] :=
        fun tick htick => h tick (List.mem_cons_of_mem t htick)
      by_cases hlt : t.now - startTime < (wm : Int) * 60 * 1000
      · cases hr : t.reactions with
        | err e =>
          simp only [waitForApproval, if_pos hlt, hr]
          exact ih hrest
        | ok rs =>
          obtain ⟨hrej, happ⟩ := h t (List.mem_cons_self t rest) hlt rs hr
          simp only [waitForApproval, if_pos hlt, hr]
          rw [tickDecision_none t.userInfo rs ch ts excl ar rr hrej happ]
          exact ih hrest
      · simp only [waitForApproval, if_neg hlt]
  · intro ticks₁ tick ticks₂ startTime ch ts excl ar rr wm h hge
    induction ticks₁ with
    | nil =>
      simp only [List.nil_append, waitForApproval, if_neg (by omega : ¬ tick.now - startTime < (wm : Int) * 60 * 1000)]
    | cons t rest ih =>
      have hrest : ∀ t' ∈ rest, t'.now - startTime < (wm : Int) * 60 * 1000 →
          ∀ rs, t'.reactions = .ok rs →
            nonExcludedUsers rs rr excl = [] ∧ nonExcludedUsers rs ar excl = [] :=
        fun t' ht' => h t' (List.mem_cons_of_mem t ht')
      by_cases hlt : t.now - startTime < (wm : Int) * 60 * 1000
      · cases hr : t.reactions with
        | err e =>
          simp only [List.cons_append, waitForApproval, if_pos hlt, hr]
          exact ih hrest
        | ok rs =>
          obtain ⟨hrej, happ⟩ := h t (List.mem_cons_self t rest) hlt rs hr
          simp only [List.cons_append, waitForApproval, if_pos hlt, hr]
          rw [tickDecision_none t.userInfo rs ch ts excl ar rr hrej happ]
          exact ih hrest
      · simp only [List.cons_append, waitForApproval, if_neg hlt]

/-- C1: when the schedule fetch fails (and the timezone resolves), the run
returns an ok result with status `approved` and the availability-first
message, and its only side effect is the single error-notice post; the
environment's `postMessageResult` is unconstrained, so the outcome of that
post does not influence the returned value. -/
theorem checkRelease_fetch_error_availability_first :
    ∀ (config : ReleaseCheckConfig) (env : Env) (channelId : String) (t : JsDate) (e : Err),
      env.getNow (jsOrStr config.timezone "Asia/Tokyo") = .ok t →
      env.fetchResult = .err e →
      checkRelease config env channelId =
        (.ok { status := .approved,
               message := "Release approved - proceeding due to error (availability-first policy)" },
         [.postMessage channelId
           ("⚠️ Error occurred while checking schedules: " ++ e.message ++
             "\nProceeding with release for availability.") []]) := by
  intro config env channelId t e hnow hfetch
  simp only [checkRelease, hnow, hfetch]

/-- C8: when the fetch succeeds but no fetched schedule matches the
configured product and environment names and is active at the resolved
instant, the run returns ok with status `no_schedule` and an empty
schedules list, and posts no message of any kind. -/
theorem checkRelease_no_schedule_no_message :
    ∀ (config : ReleaseCheckConfig) (env : Env) (channelId : String) (t : JsDate)
      (ss : List Schedule),
      env.getNow (jsOrStr config.timezone "Asia/Tokyo") = .ok t →
      env.fetchResult = .ok ss →
      (∀ s ∈ ss, s.productName = config.productName →
        s.environmentName = config.environmentName → ¬ activeAt s t) →
      checkRelease config env channelId =
        (.ok { status := .no_schedule,
               message := "No active schedules found for " ++ config.productName ++ " in " ++
                 config.environmentName ++ " environment. Release approved.",
               schedules := some [] },
         []) := by
  intro config env channelId t ss hnow hfetch hnone
  have hrel : findRelevantSchedules ss config.productName config.environmentName t = [] := by
    unfold findRelevantSchedules findActiveSchedules
    rw [List.filter_filter]
    apply List.filter_eq_nil_iff.mpr
    intro s hs
    intro hcontr
    simp only [Bool.and_eq_true, beq_iff_eq] at hcontr
    obtain ⟨hw, hp, he⟩ := hcontr
    apply hnone s hs hp he
    simp only [isWithinTimeRange, Bool.and_eq_true, decide_eq_true_eq] at hw
    exact hw
  simp only [checkRelease, hnow, hfetch, hrel, List.isEmpty_nil, if_true]

/-- C9: when relevant active schedules exist but posting the approval
request fails, the run returns an error result wrapping the posting
failure (a `NetworkError` with the failure as cause) — the failure is
propagated, not swallowed. -/
theorem checkRelease_post_failure_propagates :
    ∀ (config : ReleaseCheckConfig) (env : Env) (channelId : String) (t : JsDate)
      (ss : List Schedule) (e : Err),
      env.getNow (jsOrStr config.timezone "Asia/Tokyo") = .ok t →
      env.fetchResult = .ok ss →
      findRelevantSchedules ss config.productName config.environmentName t ≠ [] →
      env.postMessageResult = .err e →
      checkRelease config env channelId =
        (.err (.networkError "Failed to post approval request to Slack" e),
         [.postMessage channelId
           (approvalMessage (findRelevantSchedules ss config.productName config.environmentName t)
             config)
           (approvalMentionIds
             (findRelevantSchedules ss config.productName config.environmentName t))]) := by
  intro config env channelId t ss e hnow hfetch hne hpost
  have hemp : (findRelevantSchedules ss config.productName config.environmentName t).isEmpty
      = false := by
    cases hh : (findRelevantSchedules ss config.productName config.environmentName t).isEmpty
    · rfl
    · exact absurd (List.isEmpty_iff.mp hh) hne
  simp only [checkRelease, hnow, hfetch, hemp, Bool.false_eq_true, if_false, hpost]

/-- C10: `checkRelease` substitutes the documented default for every falsy
optional config value, not only for absent ones: a supplied `waitMinutes`
of `0`, or supplied empty-string reaction/timezone values, make the run
behave exactly as if the fields were absent — equivalently, as if the
defaults 20 / "ok" / "-1" / "Asia/Tokyo" had been supplied. -/
theorem checkRelease_falsy_values_use_defaults :
    ∀ (config : ReleaseCheckConfig) (env : Env) (channelId : String),
      checkRelease { config with waitMinutes := some 0, approveReaction := some "", rejectReaction := some "", timezone := some "" } env channelId =
        checkRelease { config with waitMinutes := none, approveReaction := none, rejectReaction := none, timezone := none } env channelId ∧
      checkRelease { config with waitMinutes := some 0, approveReaction := some "", rejectReaction := some "", timezone := some "" } env channelId =
        checkRelease { config with waitMinutes := some 20, approveReaction := some "ok", rejectReaction := some "-1", timezone := some "Asia/Tokyo" } env channelId := by
  intro config env channelId
  constructor
  · rfl
  · rfl

/-! ### Concrete data for witnesses -/

def dateA : JsDate := ⟨2024, 0, 15, 10, 0, 0⟩
def dateB : JsDate := ⟨2024, 0, 15, 12, 0, 0⟩
def dateC : JsDate := ⟨2024, 0, 15, 11, 0, 0⟩
def dateD : JsDate := ⟨2024, 0, 15, 13, 0, 0⟩

def schedOne : Schedule := ⟨"app", "staging", dateA, dateB, "U111", "Alice", ""⟩
def schedTwo : Schedule := ⟨"web", "staging", dateC, dateD, "U222", "Bob", ""⟩

def tickReject : Tick :=
  ⟨1000, .ok [⟨"-1", 1, ["U999"]⟩, ⟨"ok", 1, ["U888"]⟩], .ok ⟨"U999", "Carol"⟩⟩

def tickIdle : Tick := ⟨1000, .ok [], .err (.error "noinfo")⟩

def envFetchErr : Env :=
  ⟨fun _ => .ok dateA, .err (.error "boom"), .ok ⟨"C1", "1.2"⟩, 0, []⟩

def envNoMatch : Env :=
  ⟨fun _ => .ok dateC, .ok [schedOne], .ok ⟨"C1", "1.2"⟩, 0, []⟩

def envPostErr : Env :=
  ⟨fun _ => .ok dateC, .ok [schedOne], .err (.error "slack down"), 0, []⟩

/-- Witness for C1 at a concrete environment whose schedule fetch fails. -/
theorem checkRelease_fetch_error_availability_first_witness :
    checkRelease ⟨"app", "staging", none, none, none, none, none⟩ envFetchErr "C1" =
      (.ok { status := .approved,
             message := "Release approved - proceeding due to error (availability-first policy)" },
       [.postMessage "C1"
         "⚠️ Error occurred while checking schedules: boom\nProceeding with release for availability."
         []]) :=
  (checkRelease_fetch_error_availability_first ⟨"app", "staging", none, none, none, none, none⟩
    envFetchErr "C1" dateA (.error "boom") rfl rfl).trans (by decide)

/-- Witness for C2 at a concrete tick carrying both decisive reactions:
the run rejects with the non-excluded rejector. -/
theorem waitForApproval_tick_characterisation_witness :
    waitForApproval 0 "C1" "111.222" ["U777"] "ok" "-1" 20 [tickReject] =
      (⟨.rejected, some ["U999"]⟩,
       [.postThreadMessage "C1" "111.222" "❌ <@U999> (Carol) が拒否しました"]) :=
  ((waitForApproval_tick_characterisation tickReject [] 0 "C1" "111.222" ["U777"] "ok" "-1" 20
    [⟨"-1", 1, ["U999"]⟩, ⟨"ok", 1, ["U888"]⟩] (by decide) rfl).2.2.1
      (by decide)).trans (by decide)

/-- Witness for C4 at a concrete one-tick trace with no decisive reaction. -/
theorem waitForApproval_timeout_characterisation_witness :
    waitForApproval 0 "C1" "111.222" [] "ok" "-1" 20 [tickIdle] = (⟨.timeout, none⟩, []) :=
  waitForApproval_timeout_characterisation.1 [tickIdle] 0 "C1" "111.222" [] "ok" "-1" 20
    (by
      intro tick ht hlt rs hr
      rw [List.mem_singleton] at ht
      subst ht
      rw [show tickIdle.reactions = .ok [] from rfl] at hr
      cases hr
      exact ⟨rfl, rfl⟩)

/-- Witness for C6 at a concrete valid row. -/
theorem validateScheduleRow_cases_witness :
    validateScheduleRow
        ["app", "staging", "2024/01/15 10:00", "2024/01/15 12:00", "U111", "Alice", "memo"] =
      .ok ⟨"app", "staging", dateA, dateB, "U111", "Alice", "memo"⟩ :=
  (validateScheduleRow_cases.2.2.2.2
    ["app", "staging", "2024/01/15 10:00", "2024/01/15 12:00", "U111", "Alice", "memo"]
    dateA dateB (by decide) (by decide) (by decide) (by decide)).trans (by decide)

/-- Witness for C7: a concrete overlapping pair appears in input order and
not in the reversed orientation. -/
theorem findOverlappingSchedules_characterisation_witness :
    (schedTwo, schedOne) ∉ findOverlappingSchedules [schedOne, schedTwo] :=
  findOverlappingSchedules_characterisation.2.2 [schedOne, schedTwo] schedOne schedTwo
    (by decide) (by decide) (by decide)

set_option maxRecDepth 8192 in
/-- Witness for C8 at a concrete environment whose only schedule is for a
different product. -/
theorem checkRelease_no_schedule_no_message_witness :
    checkRelease ⟨"other", "staging", none, none, none, none, none⟩ envNoMatch "C1" =
      (.ok { status := .no_schedule,
             message := "No active schedules found for other in staging environment. Release approved.",
             schedules := some [] },
       []) :=
  (checkRelease_no_schedule_no_message ⟨"other", "staging", none, none, none, none, none⟩
    envNoMatch "C1" dateC [schedOne] rfl rfl
    (by
      intro s hs hp he
      rw [List.mem_singleton] at hs
      subst hs
      exact absurd hp (by decide))).trans (by decide)

set_option maxRecDepth 8192 in
/-- Witness for C9 at a concrete environment where the approval-request
post fails. -/
theorem checkRelease_post_failure_propagates_witness :
    checkRelease ⟨"app", "staging", none, none, none, none, none⟩ envPostErr "C1" =
      (.err (.networkError "Failed to post approval request to Slack" (.error "slack down")),
       [.postMessage "C1"
         (approvalMessage [schedOne] ⟨"app", "staging", none, none, none, none, none⟩)
         ["U111"]]) :=
  (checkRelease_post_failure_propagates ⟨"app", "staging", none, none, none, none, none⟩
    envPostErr "C1" dateC [schedOne] (.error "slack down") rfl rfl (by decide) rfl).trans
    (by decide)

/-! ### Arithmetic of the `Date` constructor model (for C5) -/

theorem daysInMonth_bounds (y m : Int) : 28 ≤ daysInMonth y m ∧ daysInMonth y m ≤ 31 := by
  unfold daysInMonth
  split
  · split <;> omega
  · split <;> omega

theorem normDay_month_range : ∀ (fuel : Nat) (y m off : Int), 0 ≤ m → m ≤ 11 →
    0 ≤ (normDay fuel y m off).2.1 ∧ (normDay fuel y m off).2.1 ≤ 11 := by
  intro fuel
  induction fuel with
  | zero => intro y m off h1 h2; exact ⟨h1, h2⟩
  | succ n ih =>
    intro y m off h1 h2
    simp only [normDay]
    split
    · split <;> exact ih _ _ _ (by omega) (by omega)
    · split
      · split <;> exact ih _ _ _ (by omega) (by omega)
      · exact ⟨h1, h2⟩

theorem normDay_year_le_of_nonneg : ∀ (fuel : Nat) (y m off : Int), 0 ≤ off →
    y ≤ (normDay fuel y m off).1 := by
  intro fuel
  induction fuel with
  | zero => intro y m off _; exact le_refl y
  | succ n ih =>
    intro y m off h
    simp only [normDay]
    split
    · rename_i hneg
      exact absurd hneg (by omega)
    · split
      · rename_i hdim
        split
        · exact le_trans (by omega) (ih _ _ _ (by omega))
        · exact le_trans (le_refl y) (ih _ _ _ (by omega))
      · exact le_refl y

theorem normDay_year_lb (fuel : Nat) (y m off : Int) (h : -1 ≤ off) :
    y - 1 ≤ (normDay fuel y m off).1 := by
  cases fuel with
  | zero => simp only [normDay]; omega
  | succ n =>
    simp only [normDay]
    split
    · rename_i hneg
      split
      · rename_i hm
        have hb := daysInMonth_bounds (y - 1) 11
        have := normDay_year_le_of_nonneg n (y - 1) 11 (off + daysInMonth (y - 1) 11)
          (by omega)
        omega
      · rename_i hm
        have hb := daysInMonth_bounds y (m - 1)
        have := normDay_year_le_of_nonneg n y (m - 1) (off + daysInMonth y (m - 1))
          (by omega)
        omega
    · split
      · rename_i hdim
        split
        · have := normDay_year_le_of_nonneg n (y + 1) 0 (off - daysInMonth y m) (by omega)
          omega
        · have := normDay_year_le_of_nonneg n y (m + 1) (off - daysInMonth y m) (by omega)
          omega
      · omega

theorem normDay_off_range_of_nonneg : ∀ (fuel : Nat) (y m off : Int), 0 ≤ m → m ≤ 11 →
    0 ≤ off → off < 28 * fuel →
    0 ≤ (normDay fuel y m off).2.2 ∧
    (normDay fuel y m off).2.2 <
      daysInMonth (normDay fuel y m off).1 (normDay fuel y m off).2.1 := by
  intro fuel
  induction fuel with
  | zero => intro y m off _ _ h3 h4; exact absurd h4 (by omega)
  | succ n ih =>
    intro y m off h1 h2 h3 h4
    simp only [normDay]
    split
    · rename_i hneg
      exact absurd hneg (by omega)
    · split
      · rename_i hdim
        have hb := daysInMonth_bounds y m
        split <;> exact ih _ _ _ (by omega) (by omega) (by omega) (by omega)
      · rename_i hdim
        refine ⟨h3, ?_⟩
        show off < daysInMonth y m
        omega

/-- One unfolding step of `normDay` at positive fuel. -/
theorem normDay_one_step (n : Nat) (y m off : Int) :
    normDay (n + 1) y m off =
      if off < 0 then
        normDay n (if m = 0 then y - 1 else y) (if m = 0 then 11 else m - 1)
          (off + daysInMonth (if m = 0 then y - 1 else y) (if m = 0 then 11 else m - 1))
      else if daysInMonth y m ≤ off then
        normDay n (if m = 11 then y + 1 else y) (if m = 11 then 0 else m + 1)
          (off - daysInMonth y m)
      else (y, m, off) := by
  simp only [normDay]

theorem normDay_off_range (y m off : Int) (h1 : 0 ≤ m) (h2 : m ≤ 11)
    (h3 : -1 ≤ off) (h4 : off ≤ 200) :
    0 ≤ (normDay 400 y m off).2.2 ∧
    (normDay 400 y m off).2.2 <
      daysInMonth (normDay 400 y m off).1 (normDay 400 y m off).2.1 := by
  by_cases hnn : 0 ≤ off
  · exact normDay_off_range_of_nonneg 400 y m off h1 h2 hnn (by omega)
  · rw [show (400 : Nat) = 399 + 1 from rfl, normDay_one_step]
    rw [if_pos (by omega : off < 0)]
    split
    · rename_i hm
      have hb := daysInMonth_bounds (y - 1) 11
      exact normDay_off_range_of_nonneg 399 (y - 1) 11 (off + daysInMonth (y - 1) 11)
        (by omega) (by omega) (by omega) (by omega)
    · rename_i hm
      have hb := daysInMonth_bounds y (m - 1)
      exact normDay_off_range_of_nonneg 399 y (m - 1) (off + daysInMonth y (m - 1))
        (by omega) (by omega) (by omega) (by omega)

theorem normDay_id (fuel : Nat) (y m off : Int) (h1 : 0 ≤ off)
    (h2 : off < daysInMonth y m) : normDay (fuel + 1) y m off = (y, m, off) := by
  simp only [normDay]
  rw [if_neg (by omega), if_neg (by omega)]

/-- Calendar validity of the captured digits, as the spec states it
(display convention: `month` 1-based): the month exists, the day exists in
that month of that year, and the time components are in range.  Stated
from the spec's words for comparison with the code's re-validation. -/
def calendarValid (y mo d h mi s : Nat) : Prop :=
  1 ≤ mo ∧ mo ≤ 12 ∧ 1 ≤ d ∧ (d : Int) ≤ daysInMonth (y : Int) ((mo : Int) - 1) ∧
  h ≤ 23 ∧ mi ≤ 59 ∧ s ≤ 59

instance (y mo d h mi s : Nat) : Decidable (calendarValid y mo d h mi s) := by
  unfold calendarValid; infer_instance

/-- The component re-validation performed by `parseDateTime` succeeds on
regex-bounded digits iff the year is at least 100 (the two-digit-year rule
of the `Date` constructor remaps years 0–99 to 1900–1999, so those never
survive the round-trip) and the digits are calendar-valid. -/
theorem mkJsDate_check_iff (y mo d h mi s : Nat)
    (hy : y ≤ 9999) (hmo : mo ≤ 99) (hd : d ≤ 99) (hh : h ≤ 99) (hmi : mi ≤ 99)
    (hs : s ≤ 99) :
    ((mkJsDate y ((mo : Int) - 1) d h mi s).year = (y : Int) ∧
     (mkJsDate y ((mo : Int) - 1) d h mi s).month = (mo : Int) - 1 ∧
     (mkJsDate y ((mo : Int) - 1) d h mi s).day = (d : Int) ∧
     (mkJsDate y ((mo : Int) - 1) d h mi s).hour = (h : Int) ∧
     (mkJsDate y ((mo : Int) - 1) d h mi s).minute = (mi : Int) ∧
     (mkJsDate y ((mo : Int) - 1) d h mi s).second = (s : Int)) ↔
    (100 ≤ y ∧ calendarValid y mo d h mi s) := by
  unfold calendarValid
  simp only [mkJsDate]
  constructor
  · rintro ⟨h1, h2, h3, h4, h5, h6⟩
    -- time components must already be in range for the getters to agree
    have hS : s ≤ 59 := by omega
    have hMI : mi ≤ 59 := by omega
    have hH : h ≤ 23 := by omega
    have hq : ((h : Int) * 3600 + (mi : Int) * 60 + (s : Int)) / 86400 = 0 := by omega
    -- month bounds from the month getter
    have hmr := normDay_month_range 400
      (fullYear y + ((mo : Int) - 1) / 12) (((mo : Int) - 1) % 12)
      ((d : Int) - 1 + ((h : Int) * 3600 + (mi : Int) * 60 + (s : Int)) / 86400)
      (by omega) (by omega)
    rw [h2] at hmr
    have hmo12 : 1 ≤ mo ∧ mo ≤ 12 := by omega
    -- the year getter forces the two-digit-year rule not to fire
    have hy100 : 100 ≤ y := by
      by_contra hylt
      have hfull : fullYear (y : Int) = 1900 + (y : Int) := by
        unfold fullYear
        rw [if_pos (by omega)]
      have hlb := normDay_year_lb 400
        (fullYear y + ((mo : Int) - 1) / 12) (((mo : Int) - 1) % 12)
        ((d : Int) - 1 + ((h : Int) * 3600 + (mi : Int) * 60 + (s : Int)) / 86400)
        (by omega)
      rw [h1, hfull] at hlb
      omega
    have hfull : fullYear (y : Int) = (y : Int) := by
      unfold fullYear
      rw [if_neg (by omega)]
    have hediv : ((mo : Int) - 1) / 12 = 0 := by omega
    have hemod : ((mo : Int) - 1) % 12 = (mo : Int) - 1 := by omega
    rw [hfull, hediv, hemod, hq] at h1 h2 h3
    simp only [add_zero] at h1 h2 h3
    have hor := normDay_off_range (y : Int) ((mo : Int) - 1) ((d : Int) - 1)
      (by omega) (by omega) (by omega) (by omega)
    rw [h1, h2] at hor
    have hd1 : 1 ≤ d := by omega
    refine ⟨hy100, hmo12.1, hmo12.2, hd1, ?_, hH, hMI, hS⟩
    omega
  · rintro ⟨hy100, hm1, hm12, hd1, hdim, hH, hMI, hS⟩
    have hfull : fullYear (y : Int) = (y : Int) := by
      unfold fullYear
      rw [if_neg (by omega)]
    have hq : ((h : Int) * 3600 + (mi : Int) * 60 + (s : Int)) / 86400 = 0 := by omega
    have hediv : ((mo : Int) - 1) / 12 = 0 := by omega
    have hemod : ((mo : Int) - 1) % 12 = (mo : Int) - 1 := by omega
    rw [hfull, hq, hediv, hemod, add_zero, add_zero]
    rw [show (400 : Nat) = 399 + 1 from rfl,
      normDay_id 399 (y : Int) ((mo : Int) - 1) ((d : Int) - 1) (by omega) (by omega)]
    refine ⟨rfl, rfl, ?_, by omega, by omega, by omega⟩
    show (d : Int) - 1 + 1 = (d : Int)
    omega

/-! ### Bounds on the regex capture groups (for C5) -/

theorem natOfDigits_aux_lt : ∀ (cs : List Char) (acc : Nat),
    (∀ c ∈ cs, isAsciiDigit c = true) →
    cs.foldl (fun a c => a * 10 + digitVal c) acc < (acc + 1) * 10 ^ cs.length := by
  intro cs
  induction cs with
  | nil => intro acc _; simp
  | cons c cs ih =>
    intro acc h
    have hc : isAsciiDigit c = true := h c (List.mem_cons_self c cs)
    have hdv : digitVal c ≤ 9 := by
      simp only [isAsciiDigit, Bool.and_eq_true, decide_eq_true_eq] at hc
      unfold digitVal
      omega
    have hrec := ih (acc * 10 + digitVal c) (fun x hx => h x (List.mem_cons_of_mem c hx))
    simp only [List.foldl_cons, List.length_cons]
    calc cs.foldl (fun a c => a * 10 + digitVal c) (acc * 10 + digitVal c)
        < (acc * 10 + digitVal c + 1) * 10 ^ cs.length := hrec
      _ ≤ ((acc + 1) * 10) * 10 ^ cs.length := mul_le_mul_right' (by omega) _
      _ = (acc + 1) * 10 ^ (cs.length + 1) := by ring

theorem natOfDigits_lt (cs : List Char) (h : ∀ c ∈ cs, isAsciiDigit c = true) :
    natOfDigits cs < 10 ^ cs.length := by
  have := natOfDigits_aux_lt cs 0 h
  simpa [natOfDigits] using this

theorem takeDigitsLen_bound {lo hi : Nat} {cs : List Char} {n : Nat} {r : List Char}
    (h : takeDigitsLen lo hi cs = some (n, r)) : n < 10 ^ hi := by
  simp only [takeDigitsLen] at h
  split at h
  · rename_i hcond
    simp only [Option.some.injEq, Prod.mk.injEq] at h
    obtain ⟨rfl, rfl⟩ := h
    have hlt := natOfDigits_lt (cs.takeWhile isAsciiDigit)
      (fun c hc => List.mem_takeWhile_imp hc)
    calc natOfDigits (cs.takeWhile isAsciiDigit) < 10 ^ (cs.takeWhile isAsciiDigit).length :=
        hlt
      _ ≤ 10 ^ hi := Nat.pow_le_pow_right (by omega) hcond.2
  · cases h

/-- Bounds on the captured digits: 4-digit year, 1–2 digit month, day,
hour, minute, second. -/
theorem matchDateTime_bounds {cs : List Char} {raw : RawDT}
    (h : matchDateTime cs = some raw) :
    raw.year ≤ 9999 ∧ raw.month ≤ 99 ∧ raw.day ≤ 99 ∧ raw.hour ≤ 99 ∧
    raw.minute ≤ 99 ∧ raw.second.getD 0 ≤ 99 := by
  unfold matchDateTime at h
  cases h1 : takeDigitsLen 4 4 cs with
  | none => rw [h1] at h; cases h
  | some p1 =>
    obtain ⟨year, r1⟩ := p1
    rw [h1] at h
    simp only [Option.bind_eq_bind, Option.some_bind] at h
    cases h2 : expectChar '/' r1 with
    | none => rw [h2] at h; cases h
    | some r2 =>
      rw [h2] at h
      simp only [Option.bind_eq_bind, Option.some_bind] at h
      cases h3 : takeDigitsLen 1 2 r2 with
      | none => rw [h3] at h; cases h
      | some p3 =>
        obtain ⟨month, r3⟩ := p3
        rw [h3] at h
        simp only [Option.bind_eq_bind, Option.some_bind] at h
        cases h4 : expectChar '/' r3 with
        | none => rw [h4] at h; cases h
        | some r4 =>
          rw [h4] at h
          simp only [Option.bind_eq_bind, Option.some_bind] at h
          cases h5 : takeDigitsLen 1 2 r4 with
          | none => rw [h5] at h; cases h
          | some p5 =>
            obtain ⟨day, r5⟩ := p5
            rw [h5] at h
            simp only [Option.bind_eq_bind, Option.some_bind] at h
            split at h
            · cases h
            · cases h6 : takeDigitsLen 1 2 (r5.dropWhile isJsSpace) with
              | none => rw [h6] at h; cases h
              | some p6 =>
                obtain ⟨hour, r6⟩ := p6
                rw [h6] at h
                simp only [Option.bind_eq_bind, Option.some_bind] at h
                cases h7 : expectChar ':' r6 with
                | none => rw [h7] at h; cases h
                | some r7 =>
                  rw [h7] at h
                  simp only [Option.bind_eq_bind, Option.some_bind] at h
                  cases h8 : takeDigitsLen 1 2 r7 with
                  | none => rw [h8] at h; cases h
                  | some p8 =>
                    obtain ⟨minute, r8⟩ := p8
                    rw [h8] at h
                    simp only [Option.bind_eq_bind, Option.some_bind] at h
                    have hyb := takeDigitsLen_bound h1
                    have hmb := takeDigitsLen_bound h3
                    have hdb := takeDigitsLen_bound h5
                    have hhb := takeDigitsLen_bound h6
                    have hmib := takeDigitsLen_bound h8
                    split at h
                    · simp only [Option.some.injEq] at h
                      subst h
                      dsimp only
                      refine ⟨by omega, by omega, by omega, by omega, by omega, ?_⟩
                      simp only [Option.getD_none]
                      omega
                    · rename_i r9
                      cases h9 : takeDigitsLen 1 2 r9 with
                      | none => rw [h9] at h; cases h
                      | some p9 =>
                        obtain ⟨second, r10⟩ := p9
                        rw [h9] at h
                        simp only [Option.bind_eq_bind, Option.some_bind] at h
                        split at h
                        · simp only [Option.some.injEq] at h
                          subst h
                          have hsb := takeDigitsLen_bound h9
                          dsimp only
                          refine ⟨by omega, by omega, by omega, by omega, by omega, ?_⟩
                          simp only [Option.getD_some]
                          omega
                        · cases h
                    · cases h

theorem isJsSpace_not_digit (c : Char) (h : isJsSpace c = true) : isAsciiDigit c = false := by
  rw [Bool.eq_false_iff]
  intro hd
  simp only [isAsciiDigit, Bool.and_eq_true, decide_eq_true_eq] at hd
  simp only [isJsSpace, Bool.or_eq_true, decide_eq_true_eq, Bool.and_eq_true] at h
  omega

theorem matchDateTime_none_of_all_space {cs : List Char} (h : cs.all isJsSpace = true) :
    matchDateTime cs = none := by
  have htw : cs.takeWhile isAsciiDigit = [] := by
    cases cs with
    | nil => rfl
    | cons c rest =>
      have hc : isJsSpace c = true := by
        simp only [List.all_cons, Bool.and_eq_true] at h
        exact h.1
      simp [List.takeWhile_cons, isJsSpace_not_digit c hc]
  unfold matchDateTime takeDigitsLen
  rw [htw]
  simp

/-- C5 (amended): `parseDateTime` succeeds exactly on strings matching the
`YYYY/MM/DD HH:MM[:SS]` pattern whose digits are calendar-valid **and whose
year is at least 100** — pattern-matching calendar-valid strings with year
0000–0099 are rejected, because the `Date(y, ...)` constructor remaps such
years to 1900+y and the component re-validation then fails.  On success
the returned date's components equal the input digits. -/
theorem parseDateTime_characterisation :
    ∀ str : String,
      ((parseDateTime str).isOk = true ↔
        ∃ raw, matchDateTime str.data = some raw ∧ 100 ≤ raw.year ∧
          calendarValid raw.year raw.month raw.day raw.hour raw.minute (raw.second.getD 0)) ∧
      (∀ (raw : RawDT) (date : JsDate), matchDateTime str.data = some raw →
        parseDateTime str = .ok date →
        date.year = (raw.year : Int) ∧ date.month = (raw.month : Int) - 1 ∧
        date.day = (raw.day : Int) ∧ date.hour = (raw.hour : Int) ∧
        date.minute = (raw.minute : Int) ∧ date.second = ((raw.second.getD 0 : Nat) : Int)) := by
  intro str
  by_cases hsp : str.data.all isJsSpace
  · have hnone := matchDateTime_none_of_all_space hsp
    constructor
    · simp only [parseDateTime, hsp, if_true, Result.isOk, Bool.false_eq_true, false_iff]
      rintro ⟨raw, hm', -, -⟩
      rw [hnone] at hm'
      cases hm'
    · intro raw date hm' _
      rw [hnone] at hm'
      cases hm'
  · cases hm : matchDateTime str.data with
    | none =>
      constructor
      · simp only [parseDateTime, hsp, hm, if_false, Result.isOk, Bool.false_eq_true,
          false_iff]
        rintro ⟨raw, hm', -, -⟩
        cases hm'
      · intro raw date hm' _
        cases hm'
    | some raw =>
      obtain ⟨hby, hbmo, hbd, hbh, hbmi, hbs⟩ := matchDateTime_bounds hm
      have hiff := mkJsDate_check_iff raw.year raw.month raw.day raw.hour raw.minute
        (raw.second.getD 0) hby hbmo hbd hbh hbmi hbs
      simp only [parseDateTime, hsp, hm, if_false]
      constructor
      · constructor
        · intro hok
          by_cases hP : 100 ≤ raw.year ∧
              calendarValid raw.year raw.month raw.day raw.hour raw.minute (raw.second.getD 0)
          · exact ⟨raw, rfl, hP.1, hP.2⟩
          · rw [if_neg (fun hc => hP (hiff.mp hc))] at hok
            exact absurd hok (by simp [Result.isOk])
        · rintro ⟨raw', hm', h100, hcv⟩
          simp only [Option.some.injEq] at hm'
          subst hm'
          rw [if_pos (hiff.mpr ⟨h100, hcv⟩)]
          rfl
      · intro raw' date hm' hok
        simp only [Option.some.injEq] at hm'
        subst hm'
        by_cases hP : 100 ≤ raw.year ∧
            calendarValid raw.year raw.month raw.day raw.hour raw.minute
              (raw.second.getD 0)
        · rw [if_pos (hiff.mpr hP)] at hok
          cases hok
          exact hiff.mpr hP
        · rw [if_neg (fun hc => hP (hiff.mp hc))] at hok
          cases hok

set_option maxRecDepth 8192 in
/-- C5 counterexample to the claim as stated: `"0099/01/15 10:00"` matches
the pattern (4-digit year) and its digits denote a calendar-valid date and
time, yet `parseDateTime` rejects it — the ECMAScript two-digit-year rule
maps year 99 to 1999 inside the `Date` constructor, so the component
re-validation fails. -/
theorem parseDateTime_claim_counterexample :
    matchDateTime ("0099/01/15 10:00").data = some ⟨99, 1, 15, 10, 0, none⟩ ∧
    calendarValid 99 1 15 10 0 0 ∧
    (parseDateTime "0099/01/15 10:00").isOk = false := by
  refine ⟨by decide, by decide, by decide⟩

set_option maxRecDepth 8192 in
/-- Witness for C5 at a concrete valid input: parsing
`"2024/01/15 10:00"` yields exactly the input components. -/
theorem parseDateTime_characterisation_witness :
    dateA.year = ((2024 : Nat) : Int) ∧ dateA.month = ((1 : Nat) : Int) - 1 ∧
    dateA.day = ((15 : Nat) : Int) ∧ dateA.hour = ((10 : Nat) : Int) ∧
    dateA.minute = ((0 : Nat) : Int) ∧ dateA.second = ((0 : Nat) : Int) :=
  (parseDateTime_characterisation "2024/01/15 10:00").2 ⟨2024, 1, 15, 10, 0, none⟩ dateA
    (by decide) (by decide)

end StagingCoordinator
